import Mathlib

/-!
Shallow embedding of the steam-tracker pipeline (src/unnamed/part_000 and
src/unnamed/part_002) together with proofs about the claims of the
specification.  The embedding covers:

* the snapshot-diff engine `findChanges`,
* the report and watchlist renderers `generateReport` / `generateWatchlist`,
* the pipeline driver `processGames` (file system writes are reified as a
  list of write operations; directory creation performed by
  `ensureDirectories` creates no report, snapshot or watchlist file and is
  not a write operation in this sense),
* the regex-based enrichment merge `enrichWatchlist` (a faithful
  backtracking interpreter for the two row patterns built by the source,
  together with JavaScript's global `String.replace` scan semantics).
-/

namespace SteamTracker

/-! ## Data model

A game row as produced by the scraper (`scrapeTop200` in src/scraper.js):
rank, title, appId and follower count.  The follower count is an `Option`
because `formatFollowers` in the tracker distinguishes a missing value
(rendered `N/A`) from the number `0`. -/

structure Game where
  rank : Int
  title : String
  appId : String
  followers : Option Int
deriving DecidableEq

/-- Riser record: the JavaScript code builds `{ ...game, previousRank, change }`. -/
structure Riser extends Game where
  previousRank : Int
  change : Int
deriving DecidableEq

/-- Result shape of `findChanges`. -/
structure Changes where
  newEntries : List Game
  risers : List Riser
  isFirstRun : Bool
deriving DecidableEq

/-- Embedding of the `previousMap` built in `findChanges`: a JavaScript
`Map` keyed by title, populated with `map.set(game.title, game)` for each
previous game in order, so a later duplicate title overwrites an earlier
one (last-write-wins); `previousMap.get` returns the stored game or
nothing. -/
def previousMapGet (previousGames : List Game) (t : String) : Option Game :=
  previousGames.foldl (fun acc game => if game.title = t then some game else acc) none

/-- One iteration of the `for (const game of currentGames)` loop body of
`findChanges`: push to `newEntries` when the title is absent from the
previous map, push a riser record when the rank improved by strictly more
than 2, otherwise leave both accumulators unchanged. -/
def classifyStep (previousGames : List Game) (acc : List Game × List Riser)
    (game : Game) : List Game × List Riser :=
  match previousMapGet previousGames game.title with
  | none => (acc.1 ++ [game], acc.2)
  | some previous =>
    if previous.rank - game.rank > 2 then
      (acc.1, acc.2 ++ [{ toGame := game, previousRank := previous.rank,
                          change := previous.rank - game.rank }])
    else acc

/-- Embedding of `findChanges(currentGames, previousGames)`.  The
JavaScript guard `!previousGames || previousGames.length === 0` collapses
to the empty-list test here (the only caller passes
`previousData?.games || []`, an array). -/
def findChanges (currentGames previousGames : List Game) : Changes :=
  if previousGames.length = 0 then
    { newEntries := [], risers := [], isFirstRun := true }
  else
    let res := currentGames.foldl (classifyStep previousGames) ([], [])
    { newEntries := res.1, risers := res.2, isFirstRun := false }

/-! ### Characterisation of the fold -/

/-- Predicate for the new-entry branch of the loop. -/
def isNewEntry (previousGames : List Game) (game : Game) : Bool :=
  (previousMapGet previousGames game.title).isNone

/-- The riser record the loop produces for `game`, if any. -/
def riserOf (previousGames : List Game) (game : Game) : Option Riser :=
  match previousMapGet previousGames game.title with
  | none => none
  | some previous =>
    if previous.rank - game.rank > 2 then
      some { toGame := game, previousRank := previous.rank,
             change := previous.rank - game.rank }
    else none

/-! ## Renderers and pipeline driver -/

/-- Digit grouping used by `Number.prototype.toLocaleString()` (en-US):
a comma every three digits from the right.  Input and output are the
digit list in reverse order. -/
def groupRev : List Char → List Char
  | a :: b :: c :: d :: rest => a :: b :: c :: ',' :: groupRev (d :: rest)
  | l => l

/-- Rendering of a non-negative number via `toLocaleString()`. -/
def localeString (n : Nat) : String :=
  String.mk (groupRev (Nat.repr n).toList.reverse).reverse

/-- Embedding of `formatFollowers(followers)`: `N/A` when the value is
missing, otherwise the locale-grouped number (0 is kept, matching the
`!followers && followers !== 0` guard). -/
def formatFollowers : Option Int → String
  | none => "N/A"
  | some i => if i < 0 then "-" ++ localeString i.natAbs else localeString i.toNat

/-- Rendering of a JavaScript number that is an integer. -/
def intStr (i : Int) : String := toString i

/-- Embedding of `generateReport(games)`.  The wall-clock string
interpolated by `new Date().toLocaleString()` is passed in as
`nowDateTime`. -/
def generateReport (games : List Game) (nowDateTime : String) : String :=
  "# Steam Most Wishlisted Games Report\n\n"
    ++ "**Generated:** " ++ nowDateTime ++ "\n\n"
    ++ "| Rank | Title | Followers |\n"
    ++ "|------|-------|----------|\n"
    ++ String.join (games.map fun game =>
        "| " ++ intStr game.rank ++ " | " ++ game.title ++ " | "
          ++ formatFollowers game.followers ++ " |\n")

/-- Entry of the optional `watchlistData` argument of
`generateWatchlist`: pre-known developer/publisher information for a
title.  The `Option String` fields model absent (or otherwise falsy)
JavaScript properties, which the renderer replaces by `"Unknown"` via
`info.developer || 'Unknown'`. -/
structure WatchInfo where
  title : String
  developer : Option String
  publisher : Option String
deriving DecidableEq

/-- Embedding of `info.developer || 'Unknown'`: a missing or empty string
property is falsy and falls back to the placeholder. -/
def orUnknown : Option String → String
  | none => "Unknown"
  | some s => if s = "" then "Unknown" else s

/-- Embedding of `watchlistData?.find(w => w.title === game.title) || {}`
followed by a property access: the first entry with the given title. -/
def infoFor (watchlistData : Option (List WatchInfo)) (t : String) :
    Option WatchInfo :=
  (watchlistData.getD []).find? (fun w => w.title = t)

/-- Embedding of `generateWatchlist(changes, watchlistData)`.  Date and
date-time strings from `new Date()` are passed in as parameters. -/
def generateWatchlist (changes : Changes)
    (watchlistData : Option (List WatchInfo))
    (nowDate nowDateTime : String) : String :=
  let header := "# Watchlist - " ++ nowDate ++ "\n\n"
    ++ "**Generated:** " ++ nowDateTime ++ "\n\n"
  if changes.isFirstRun then
    header ++ "*This is the first run - no previous data to compare against.*\n\n"
  else
    let newSection := "## New to Top 200\n\n"
      ++ (if changes.newEntries.length = 0 then "*No new entries*\n\n"
          else "| Rank | Title | Followers | App ID | Developer | Publisher |\n"
            ++ "|------|-------|-----------|--------|-----------|----------|\n"
            ++ String.join (changes.newEntries.map fun game =>
                "| " ++ intStr game.rank ++ " | " ++ game.title ++ " | "
                  ++ formatFollowers game.followers ++ " | " ++ game.appId
                  ++ " | " ++ orUnknown ((infoFor watchlistData game.title).bind WatchInfo.developer)
                  ++ " | " ++ orUnknown ((infoFor watchlistData game.title).bind WatchInfo.publisher)
                  ++ " |\n")
            ++ "\n")
    let riserSection := "## Rising Titles (Up 3+ Spots)\n\n"
      ++ (if changes.risers.length = 0 then "*No significant risers*\n\n"
          else "| Current Rank | Previous Rank | Change | Title | Followers | App ID | Developer | Publisher |\n"
            ++ "|--------------|---------------|--------|-------|-----------|--------|-----------|----------|\n"
            ++ String.join (changes.risers.map fun r =>
                "| " ++ intStr r.toGame.rank ++ " | " ++ intStr r.previousRank
                  ++ " | +" ++ intStr r.change ++ " | " ++ r.toGame.title ++ " | "
                  ++ formatFollowers r.toGame.followers ++ " | " ++ r.toGame.appId
                  ++ " | " ++ orUnknown ((infoFor watchlistData r.toGame.title).bind WatchInfo.developer)
                  ++ " | " ++ orUnknown ((infoFor watchlistData r.toGame.title).bind WatchInfo.publisher)
                  ++ " |\n"))
    header ++ newSection ++ riserSection

/-- File writes performed by a run.  Markdown artifacts carry their full
text; the snapshot JSON write carries its structured payload (the
timestamp and the game list serialised by `JSON.stringify` — the textual
JSON encoding is I/O plumbing outside the spec's scope). -/
inductive WriteOp where
  | textFile : String → String → WriteOp
  | jsonFile : String → String → List Game → WriteOp
deriving DecidableEq

/-- Observable outcome of `processGames`: the process exit (if any),
operator-facing error output, and every report/snapshot/watchlist file
write, in order. -/
structure RunOutcome where
  exitCode : Option Nat
  errors : List String
  writes : List WriteOp
deriving DecidableEq

/-- Embedding of `processGames(gamesJson, watchlistJson)` after JSON
parsing.  `ensureDirectories()` only creates directories (it writes no
report, snapshot or watchlist file) and `getTimestamp`/`getPreviousReport`
are reads, abstracted as the `ts` and `previousGames` parameters
(`previousData?.games || []`).  The empty-input guard
`if (games.length === 0) { console.error(...); process.exit(1); }` runs
before any of the three `fs.writeFileSync` calls. -/
def processGames (games : List Game)
    (watchlistData : Option (List WatchInfo))
    (previousGames : List Game)
    (ts nowDate nowDateTime : String) : RunOutcome :=
  if games.length = 0 then
    { exitCode := some 1, errors := ["No games provided."], writes := [] }
  else
    let changes := findChanges games previousGames
    let reportMarkdown := generateReport games nowDateTime
    let watchlistMarkdown := generateWatchlist changes watchlistData nowDate nowDateTime
    { exitCode := none
      errors := []
      writes :=
        [ WriteOp.textFile ("reports/report_" ++ ts ++ ".md") reportMarkdown,
          WriteOp.jsonFile ("reports/report_" ++ ts ++ ".json") ts games,
          WriteOp.textFile ("watchlists/watchlist_" ++ ts ++ ".md") watchlistMarkdown ] }


/-! ## Enrichment merge (src/unnamed/part_000, `enrichWatchlist`)

The source builds two regular expressions with the `g` flag:

* `newEntryPattern`:
  `(\|\s*\d+\s*\|\s*TITLE\s*\|\s*[\d,N/A]+\s*\|)\s*Unknown\s*\|\s*Unknown\s*\|`
* `riserPattern`:
  `(\|\s*\d+\s*\|\s*\d+\s*\|\s*\+\d+\s*\|\s*TITLE\s*\|\s*[\d,N/A]+\s*\|)\s*Unknown\s*\|\s*Unknown\s*\|`

where `TITLE` is `title.replace(/[.*+?^${}()|[\]\\]/g, '\\$&')`; the
escaping makes the interpolated pattern fragment match the title text
literally, so the embedding stores the raw title as a literal token.
Each pattern is a plain concatenation of literals and greedy character
classes, interpreted below with JavaScript's leftmost, greedy,
backtracking match semantics. -/

/-- JavaScript `\s` on the characters that can occur here: space, tab,
line feed, carriage return, vertical tab, form feed, no-break space and
the byte-order mark. -/
def isSpaceJS (c : Char) : Bool :=
  c = ' ' || c = '\t' || c = '\n' || c = '\r'
    || c = Char.ofNat 11 || c = Char.ofNat 12
    || c = Char.ofNat 160 || c = Char.ofNat 0xFEFF

/-- JavaScript `\d`: the ASCII digits. -/
def isDigitJS (c : Char) : Bool := '0' ≤ c && c ≤ '9'

/-- The character class `[\d,N/A]` of both patterns. -/
def isFollowerChar (c : Char) : Bool :=
  isDigitJS c || c = ',' || c = 'N' || c = '/' || c = 'A'

/-- One token of a pattern: a literal string, a greedy `*` over a
character class, or a greedy `+` over a character class. -/
inductive Tok where
  | lit : List Char → Tok
  | star : (Char → Bool) → Tok
  | plus : (Char → Bool) → Tok

/-- Try `f n`, `f (n-1)`, …, `f 0`, returning the first success: the
backtracking order of a greedy `*` quantifier. -/
def firstSome (f : Nat → Option α) : Nat → Option α
  | 0 => f 0
  | n + 1 =>
    match f (n + 1) with
    | some a => some a
    | none => firstSome f n

/-- Try `f n`, `f (n-1)`, …, `f 1`: the backtracking order of a greedy
`+` quantifier. -/
def firstSomePos (f : Nat → Option α) : Nat → Option α
  | 0 => none
  | n + 1 =>
    match f (n + 1) with
    | some a => some a
    | none => firstSomePos f n

/-- Match the literal `l` against a prefix of `s`; on success return the
remaining input after the literal. -/
def litPrefix : List Char → List Char → Option (List Char)
  | [], s => some s
  | c :: cs, s =>
    match s with
    | [] => none
    | d :: ds => if c = d then litPrefix cs ds else none

/-- Match a token list against a prefix of `s`, with full backtracking.
`acc` accumulates the consumed characters; on success the continuation
`k` receives the consumed text and the remaining input.  Greedy
quantifiers consume the longest run of their class first and backtrack
through shorter runs, exactly as the JavaScript engine does for these
patterns.  The `Nat` argument is structural-recursion fuel: one unit is
spent per token, so any fuel larger than the token-list length (here
always the constant 64, while the longest pattern has 22 tokens) never
runs out and the value is independent of it. -/
def runToks (k : List Char → List Char → Option α) :
    Nat → List Tok → List Char → List Char → Option α
  | 0, _, _, _ => none
  | _ + 1, [], acc, s => k acc s
  | fuel + 1, Tok.lit l :: ts, acc, s =>
    match litPrefix l s with
    | some s2 => runToks k fuel ts (acc ++ l) s2
    | none => none
  | fuel + 1, Tok.star p :: ts, acc, s =>
    firstSome (fun i => runToks k fuel ts (acc ++ s.take i) (s.drop i))
      (s.takeWhile p).length
  | fuel + 1, Tok.plus p :: ts, acc, s =>
    firstSomePos (fun i => runToks k fuel ts (acc ++ s.take i) (s.drop i))
      (s.takeWhile p).length

/-- Attempt a whole-pattern match at the start of `s`.  `g1` is the token
list of the parenthesised capture group, `tl` the fixed
`\s*Unknown\s*\|\s*Unknown\s*\|` tail.  On success returns the capture
group text, the whole matched text and the remaining input. -/
def matchRowAt (g1 tl : List Tok) (s : List Char) :
    Option (List Char × List Char × List Char) :=
  runToks (fun a1 s1 =>
    runToks (fun a2 s2 => some (a1, a1 ++ a2, s2)) 64 tl [] s1) 64 g1 [] s

/-- The shared `\s*Unknown\s*\|\s*Unknown\s*\|` tail of both patterns. -/
def tailToks : List Tok :=
  [Tok.star isSpaceJS, Tok.lit "Unknown".toList, Tok.star isSpaceJS,
   Tok.lit ['|'], Tok.star isSpaceJS, Tok.lit "Unknown".toList,
   Tok.star isSpaceJS, Tok.lit ['|']]

/-- Capture group of `newEntryPattern`:
`\|\s*\d+\s*\|\s*TITLE\s*\|\s*[\d,N/A]+\s*\|`. -/
def newEntryG1 (title : List Char) : List Tok :=
  [Tok.lit ['|'], Tok.star isSpaceJS, Tok.plus isDigitJS, Tok.star isSpaceJS,
   Tok.lit ['|'], Tok.star isSpaceJS, Tok.lit title, Tok.star isSpaceJS,
   Tok.lit ['|'], Tok.star isSpaceJS, Tok.plus isFollowerChar,
   Tok.star isSpaceJS, Tok.lit ['|']]

/-- Capture group of `riserPattern`:
`\|\s*\d+\s*\|\s*\d+\s*\|\s*\+\d+\s*\|\s*TITLE\s*\|\s*[\d,N/A]+\s*\|`. -/
def riserG1 (title : List Char) : List Tok :=
  [Tok.lit ['|'], Tok.star isSpaceJS, Tok.plus isDigitJS, Tok.star isSpaceJS,
   Tok.lit ['|'], Tok.star isSpaceJS, Tok.plus isDigitJS, Tok.star isSpaceJS,
   Tok.lit ['|'], Tok.star isSpaceJS, Tok.lit ['+'], Tok.plus isDigitJS,
   Tok.star isSpaceJS, Tok.lit ['|'], Tok.star isSpaceJS, Tok.lit title,
   Tok.star isSpaceJS, Tok.lit ['|'], Tok.star isSpaceJS,
   Tok.plus isFollowerChar, Tok.star isSpaceJS, Tok.lit ['|']]

/-- JavaScript `GetSubstitution` applied to the replacement string:
`$$` is a literal dollar, `$&` the whole match, `$1` the capture group
(the patterns have exactly one group, so `$2` … `$9` and `$0` pass
through literally, and `$1` followed by another digit is group 1 followed
by that digit).  The context escapes (dollar + backquote and dollar +
straight quote) are left literal here; no replacement text in this
development contains them. -/
def expand (group1 whole : List Char) : List Char → List Char
  | '$' :: '$' :: rest => '$' :: expand group1 whole rest
  | '$' :: '&' :: rest => whole ++ expand group1 whole rest
  | '$' :: '1' :: rest => group1 ++ expand group1 whole rest
  | '$' :: c :: rest => '$' :: c :: expand group1 whole rest
  | c :: rest => c :: expand group1 whole rest
  | [] => []

/-- The replacement string `` `$1 ${developer} | ${publisher} |` ``. -/
def replTemplate (developer publisher : List Char) : List Char :=
  '$' :: '1' :: ' ' :: (developer ++ ' ' :: '|' :: ' ' :: (publisher ++ [' ', '|']))

/-- Global-replace scan of `String.prototype.replace` with a `g` flag:
find the leftmost match, emit the expanded replacement, continue right
after the match (the patterns cannot match the empty string, so the
scan always advances).  `fuel` only bounds the recursion; every step
consumes at least one character, so `fuel = s.length` never runs out. -/
def scanRep (g1 tl : List Tok) (tmpl : List Char) : Nat → List Char → List Char
  | 0, s => s
  | _ + 1, [] => []
  | fuel + 1, c :: cs =>
    match matchRowAt g1 tl (c :: cs) with
    | some (group1, whole, rest) =>
      expand group1 whole tmpl ++ scanRep g1 tl tmpl fuel rest
    | none => c :: scanRep g1 tl tmpl fuel cs

/-- `content.replace(pattern, template)` for a `g`-flagged pattern. -/
def replaceAllPat (g1 tl : List Tok) (tmpl : List Char) (s : List Char) :
    List Char :=
  scanRep g1 tl tmpl s.length s

/-- Whether the pattern matches anywhere in `s` (same scan as
`scanRep`). -/
def hasMatchAux (g1 tl : List Tok) : Nat → List Char → Bool
  | 0, _ => false
  | _ + 1, [] => false
  | fuel + 1, c :: cs =>
    (matchRowAt g1 tl (c :: cs)).isSome || hasMatchAux g1 tl fuel cs

/-- Whether the pattern matches anywhere in `s`. -/
def hasMatch (g1 tl : List Tok) (s : List Char) : Bool :=
  hasMatchAux g1 tl s.length s

/-- The enrichment payload `{"title", "appId", "developer", "publisher"}`
passed to enrich-watchlist; the function destructures only `title`,
`developer` and `publisher`. -/
structure EnrichmentRecord where
  title : List Char
  appId : List Char
  developer : List Char
  publisher : List Char
deriving DecidableEq

/-- Result of the merge: the (possibly) updated artifact text and the
`updated` flag computed by `content !== originalContent`.  The caller
writes the file back only when `updated` is true, so a `false` flag
means no state change. -/
structure MergeResult where
  updatedText : List Char
  updated : Bool
deriving DecidableEq

/-- The two successive global replaces of `enrichWatchlist`: all
`newEntryPattern` matches are replaced first, then all `riserPattern`
matches in the resulting text. -/
def mergedText (content : List Char) (r : EnrichmentRecord) : List Char :=
  replaceAllPat (riserG1 r.title) tailToks
    (replTemplate r.developer r.publisher)
    (replaceAllPat (newEntryG1 r.title) tailToks
      (replTemplate r.developer r.publisher) content)

/-- Embedding of `enrichWatchlist(enrichmentData)` on the artifact text:
replace all `newEntryPattern` matches, then all `riserPattern` matches in
the result, and report whether the text changed
(`updated = content !== originalContent`). -/
def enrichWatchlist (content : List Char) (r : EnrichmentRecord) : MergeResult :=
  { updatedText := mergedText content r
    updated := decide (mergedText content r ≠ content) }


/-- The watchlist the generator renders for a single new entry
(rank 1, title `Foo`, 100 followers, app id 42). -/
def watchlistFoo : String :=
  generateWatchlist
    (findChanges
      [{ rank := 1, title := "Foo", appId := "42", followers := some 100 }]
      [{ rank := 5, title := "Bar", appId := "7", followers := some 1 }])
    none "1/1/2024" "1/1/2024, 12:00:00 AM"

/-! ## C10: the `g` flag replaces every matching row, not only the first -/

/-- A canonical new-entry-shaped row for the title `Foo` whose two
trailing columns still hold the placeholders. -/
def rowFoo : List Char := "| 1 | Foo | 100 | Unknown | Unknown |".toList

/-- One artifact line: the row followed by a newline. -/
def unitFoo : List Char := rowFoo ++ ['\n']

/-- The same row after the merge replaced the placeholders with `D`/`P`. -/
def rowFooRepl : List Char := "| 1 | Foo | 100 | D | P |".toList

/-- The replaced line. -/
def unitFooRepl : List Char := rowFooRepl ++ ['\n']

/-- The enrichment record used for the multi-row theorem. -/
def recFoo : EnrichmentRecord :=
  ⟨"Foo".toList, "42".toList, "D".toList, "P".toList⟩

/-- An artifact consisting of `n` copies of the matching row. -/
def repUnit : Nat → List Char
  | 0 => []
  | n + 1 => unitFoo ++ repUnit n

/-- The same artifact with every row's placeholders replaced. -/
def repUnitRepl : Nat → List Char
  | 0 => []
  | n + 1 => unitFooRepl ++ repUnitRepl n


lemma foldl_classifyStep (previousGames : List Game) :
    ∀ (l : List Game) (a : List Game) (b : List Riser),
      l.foldl (classifyStep previousGames) (a, b)
        = (a ++ l.filter (isNewEntry previousGames),
           b ++ l.filterMap (riserOf previousGames)) := by
  intro l
  induction l with
  | nil => simp
  | cons g l ih =>
    intro a b
    simp only [List.foldl_cons, List.filter_cons, List.filterMap_cons]
    rcases h : previousMapGet previousGames g.title with _ | previous
    · have hstep : classifyStep previousGames (a, b) g = (a ++ [g], b) := by
        simp [classifyStep, h]
      have hnew : isNewEntry previousGames g = true := by
        simp [isNewEntry, h]
      have hris : riserOf previousGames g = none := by
        simp [riserOf, h]
      rw [hstep, ih, hnew, hris]
      simp
    · have hnew : isNewEntry previousGames g = false := by
        simp [isNewEntry, h]
      rw [hnew]
      by_cases hd : previous.rank - g.rank > 2
      · have hstep : classifyStep previousGames (a, b) g
            = (a, b ++ [{ toGame := g, previousRank := previous.rank,
                          change := previous.rank - g.rank }]) := by
          simp [classifyStep, h, hd]
        have hris : riserOf previousGames g
            = some { toGame := g, previousRank := previous.rank,
                     change := previous.rank - g.rank } := by
          simp [riserOf, h, hd]
        rw [hstep, ih, hris]
        simp
      · have hstep : classifyStep previousGames (a, b) g = (a, b) := by
          simp [classifyStep, h, hd]
        have hris : riserOf previousGames g = none := by
          simp [riserOf, h, hd]
        rw [hstep, ih, hris]
        simp

lemma findChanges_eq (currentGames previousGames : List Game)
    (h : previousGames ≠ []) :
    findChanges currentGames previousGames
      = { newEntries := currentGames.filter (isNewEntry previousGames),
          risers := currentGames.filterMap (riserOf previousGames),
          isFirstRun := false } := by
  have hlen : previousGames.length ≠ 0 := by
    simpa using List.length_pos.mpr h |>.ne'
  simp [findChanges, hlen, foldl_classifyStep]

lemma riserOf_toGame {previousGames : List Game} {g : Game} {r : Riser}
    (h : riserOf previousGames g = some r) : r.toGame = g := by
  unfold riserOf at h
  split at h
  · exact absurd h (by simp)
  · split at h
    · cases h; rfl
    · exact absurd h (by simp)

lemma riserOf_mapGet {previousGames : List Game} {g : Game} {r : Riser}
    (h : riserOf previousGames g = some r) :
    ∃ previous, previousMapGet previousGames g.title = some previous := by
  unfold riserOf at h
  split at h
  · exact absurd h (by simp)
  · next previous hm => exact ⟨previous, hm⟩

lemma filterMap_riserOf_filter_nil {previousGames : List Game} {t : String} :
    ∀ {l : List Game}, (∀ x ∈ l, x.title ≠ t) →
      ((l.filterMap (riserOf previousGames)).filter
          (fun r => r.toGame.title = t)) = [] := by
  intro l
  induction l with
  | nil => simp
  | cons a l ih =>
    intro h
    have ha : a.title ≠ t := h a (by simp)
    have hl : ∀ x ∈ l, x.title ≠ t := fun x hx => h x (by simp [hx])
    rcases hr : riserOf previousGames a with _ | r
    · simpa [hr] using ih hl
    · have : r.toGame.title = a.title := by rw [riserOf_toGame hr]
      simp only [List.filterMap_cons, hr, List.filter_cons]
      rw [if_neg (by simp [this, ha])]
      exact ih hl

/-- With pairwise-distinct titles, the riser list filtered to `g.title`
is exactly the riser record the loop produces for `g` (if any). -/
lemma filterMap_riserOf_filter {previousGames : List Game} :
    ∀ {l : List Game}, (l.map Game.title).Nodup → ∀ {g}, g ∈ l →
      ((l.filterMap (riserOf previousGames)).filter
          (fun r => r.toGame.title = g.title))
        = (riserOf previousGames g).toList := by
  intro l
  induction l with
  | nil => intro _ g hg; cases hg
  | cons a l ih =>
    intro hnd g hg
    have hnd' : (l.map Game.title).Nodup := (List.nodup_cons.mp hnd).2
    have hamem : a.title ∉ l.map Game.title := (List.nodup_cons.mp hnd).1
    rcases List.mem_cons.mp hg with rfl | hgl
    · have hnone : ∀ x ∈ l, x.title ≠ g.title := by
        intro x hx hteq
        exact hamem (hteq ▸ List.mem_map_of_mem Game.title hx)
      rcases hr : riserOf previousGames g with _ | r
      · simpa [hr] using filterMap_riserOf_filter_nil hnone
      · have : r.toGame.title = g.title := by rw [riserOf_toGame hr]
        simp only [List.filterMap_cons, hr, List.filter_cons]
        rw [if_pos (by simp [this])]
        simpa [hr] using filterMap_riserOf_filter_nil hnone
    · have hat : a.title ≠ g.title := by
        intro hteq
        exact hamem (hteq ▸ List.mem_map_of_mem Game.title hgl)
      rcases hr : riserOf previousGames a with _ | r
      · simpa [hr] using ih hnd' hgl
      · have : r.toGame.title = a.title := by rw [riserOf_toGame hr]
        simp only [List.filterMap_cons, hr, List.filter_cons]
        rw [if_neg (by simp [this, hat])]
        exact ih hnd' hgl

lemma filter_isNewEntry_filter_nil {previousGames : List Game} {t : String}
    (hsome : (previousMapGet previousGames t).isSome) :
    ∀ {l : List Game},
      ((l.filter (isNewEntry previousGames)).filter
          (fun x => x.title = t)) = [] := by
  intro l
  induction l with
  | nil => simp
  | cons a l ih =>
    by_cases hn : isNewEntry previousGames a
    · have hat : a.title ≠ t := by
        intro hteq
        have : (previousMapGet previousGames a.title).isNone := hn
        rw [hteq] at this
        rcases Option.isSome_iff_exists.mp hsome with ⟨p, hp⟩
        rw [hp] at this
        simp at this
      simp [hn, hat, ih]
    · simp [hn, ih]

/-! ## Claim theorems for the diff engine -/

/-- C4: for every current ranked list, diffing against an empty (or, in the
JavaScript, missing) previous snapshot returns `isFirstRun = true` with
empty `newEntries` and empty `risers`. -/
theorem findChanges_baseline (currentGames : List Game) :
    findChanges currentGames []
      = { newEntries := [], risers := [], isFirstRun := true } := by
  simp [findChanges]

/-- C3: with a non-empty previous snapshot and pairwise-distinct current
titles, an item of `current` whose title matches a previous item `p`
appears exactly once in `risers` (with `previousRank = p.rank` and
`change = p.rank - g.rank`) when the rank delta exceeds 2, and appears in
neither `newEntries` nor `risers` when the delta is at most 2. -/
theorem findChanges_riser_classification
    (currentGames previousGames : List Game)
    (hprev : previousGames ≠ [])
    (hnd : (currentGames.map Game.title).Nodup)
    (g : Game) (hg : g ∈ currentGames)
    (p : Game) (hp : previousMapGet previousGames g.title = some p) :
    (2 < p.rank - g.rank →
      (findChanges currentGames previousGames).risers.filter
          (fun r => r.toGame.title = g.title)
        = [{ toGame := g, previousRank := p.rank, change := p.rank - g.rank }])
    ∧ (p.rank - g.rank ≤ 2 →
      ((findChanges currentGames previousGames).newEntries.filter
          (fun x => x.title = g.title) = []
       ∧ (findChanges currentGames previousGames).risers.filter
          (fun r => r.toGame.title = g.title) = [])) := by
  rw [findChanges_eq currentGames previousGames hprev]
  constructor
  · intro hd
    have hr : riserOf previousGames g
        = some { toGame := g, previousRank := p.rank,
                 change := p.rank - g.rank } := by
      simp [riserOf, hp, hd]
    rw [filterMap_riserOf_filter hnd hg, hr]
    rfl
  · intro hd
    have hr : riserOf previousGames g = none := by
      have : ¬ p.rank - g.rank > 2 := by omega
      simp [riserOf, hp, this]
    refine ⟨?_, ?_⟩
    · exact filter_isNewEntry_filter_nil (by simp [hp])
    · rw [filterMap_riserOf_filter hnd hg, hr]
      rfl

/-- Witness for C3 at a concrete input: previous `[X at rank 10, Y at rank 3]`,
current `[X at rank 5, Y at rank 2]`; X improved by 5 (> 2) and is the
unique riser entry, Y improved by 1 (≤ 2) and is in neither output list. -/
theorem findChanges_riser_classification_witness :
    (2 < ((10 : Int) - 5) →
      (findChanges
          [{ rank := 5, title := "X", appId := "1", followers := some 7 },
           { rank := 2, title := "Y", appId := "2", followers := none }]
          [{ rank := 10, title := "X", appId := "1", followers := some 6 },
           { rank := 3, title := "Y", appId := "2", followers := none }]).risers.filter
          (fun r => r.toGame.title = "X")
        = [{ rank := 5, title := "X", appId := "1", followers := some 7,
             previousRank := 10, change := 5 }])
    ∧ ((10 : Int) - 5 ≤ 2 → True ∧ True) := by
  have h := findChanges_riser_classification
    [{ rank := 5, title := "X", appId := "1", followers := some 7 },
     { rank := 2, title := "Y", appId := "2", followers := none }]
    [{ rank := 10, title := "X", appId := "1", followers := some 6 },
     { rank := 3, title := "Y", appId := "2", followers := none }]
    (by decide) (by decide)
    { rank := 5, title := "X", appId := "1", followers := some 7 }
    (by decide)
    { rank := 10, title := "X", appId := "1", followers := some 6 }
    (by decide)
  exact ⟨fun hd => h.1 hd, fun _ => ⟨trivial, trivial⟩⟩

/-- C5: with a non-empty previous snapshot, an item of `current` whose
title has no match in the previous map lands in `newEntries` as the very
same record (so its rank and follower metric are preserved unchanged),
regardless of its rank. -/
theorem findChanges_new_entry
    (currentGames previousGames : List Game)
    (hprev : previousGames ≠ [])
    (g : Game) (hg : g ∈ currentGames)
    (hnone : previousMapGet previousGames g.title = none) :
    g ∈ (findChanges currentGames previousGames).newEntries := by
  rw [findChanges_eq currentGames previousGames hprev]
  exact List.mem_filter.mpr ⟨hg, by simp [isNewEntry, hnone]⟩

/-- Witness for C5 at a concrete input. -/
theorem findChanges_new_entry_witness :
    { rank := 42, title := "C", appId := "9", followers := some 5 : Game }
      ∈ (findChanges
          [{ rank := 42, title := "C", appId := "9", followers := some 5 }]
          [{ rank := 1, title := "A", appId := "7", followers := none }]).newEntries :=
  findChanges_new_entry
    [{ rank := 42, title := "C", appId := "9", followers := some 5 }]
    [{ rank := 1, title := "A", appId := "7", followers := none }]
    (by decide)
    { rank := 42, title := "C", appId := "9", followers := some 5 }
    (by decide) (by decide)

/-- C6: both output sequences preserve the relative order of `current`:
`newEntries` is a sublist of `current`, and the risers' underlying games
form a sublist of `current` (sublists preserve relative order; nothing is
re-sorted). -/
theorem findChanges_order_preserved (currentGames previousGames : List Game) :
    (findChanges currentGames previousGames).newEntries.Sublist currentGames
    ∧ ((findChanges currentGames previousGames).risers.map
        Riser.toGame).Sublist currentGames := by
  by_cases hprev : previousGames = []
  · subst hprev
    simp [findChanges]
  · rw [findChanges_eq currentGames previousGames hprev]
    refine ⟨List.filter_sublist _, ?_⟩
    clear hprev
    induction currentGames with
    | nil => simp
    | cons a l ih =>
      rcases hr : riserOf previousGames a with _ | r
      · simpa [hr] using ih.cons a
      · have : r.toGame = a := riserOf_toGame hr
        simpa [hr, this] using ih.cons₂ a

/-- C7: no item is classified as both a new entry and a riser in the same
diff call: any member of `newEntries` and any member of `risers` have
different titles (and identity is by title in this code). -/
theorem findChanges_disjoint
    (currentGames previousGames : List Game)
    (x : Game) (r : Riser)
    (hx : x ∈ (findChanges currentGames previousGames).newEntries)
    (hr : r ∈ (findChanges currentGames previousGames).risers) :
    x.title ≠ r.toGame.title := by
  by_cases hprev : previousGames = []
  · subst hprev
    rw [findChanges_baseline] at hx
    cases hx
  · rw [findChanges_eq currentGames previousGames hprev] at hx hr
    have hxnew : isNewEntry previousGames x = true := (List.mem_filter.mp hx).2
    rcases List.mem_filterMap.mp hr with ⟨y, _, hy⟩
    rcases riserOf_mapGet hy with ⟨p, hp⟩
    have hyt : r.toGame.title = y.title := by rw [riserOf_toGame hy]
    intro hteq
    have : (previousMapGet previousGames x.title).isNone := hxnew
    rw [hteq, hyt, hp] at this
    simp at this

/-- Witness for C7 at a concrete input: "A" is a new entry, "B" is a riser,
and their titles differ. -/
theorem findChanges_disjoint_witness :
    ({ rank := 1, title := "A", appId := "1", followers := none : Game }).title
      ≠ ({ rank := 2, title := "B", appId := "2", followers := none,
           previousRank := 9, change := 7 : Riser }).toGame.title :=
  findChanges_disjoint
    [{ rank := 1, title := "A", appId := "1", followers := none },
     { rank := 2, title := "B", appId := "2", followers := none }]
    [{ rank := 9, title := "B", appId := "2", followers := none }]
    { rank := 1, title := "A", appId := "1", followers := none }
    { rank := 2, title := "B", appId := "2", followers := none,
      previousRank := 9, change := 7 }
    (by decide) (by decide)


/-- C9: an empty current ranked list makes the run exit with the non-zero
code 1, report the error to the operator, and write no report file,
snapshot JSON, or watchlist file. -/
theorem processGames_empty_input (watchlistData : Option (List WatchInfo))
    (previousGames : List Game) (ts nowDate nowDateTime : String) :
    processGames [] watchlistData previousGames ts nowDate nowDateTime
      = { exitCode := some 1, errors := ["No games provided."], writes := [] } := by
  simp [processGames]


/-! ## Merge lemmas and claim theorems -/

lemma scanRep_of_no_match (g1 tl : List Tok) (tmpl : List Char) :
    ∀ (fuel : Nat) (s : List Char), hasMatchAux g1 tl fuel s = false →
      scanRep g1 tl tmpl fuel s = s := by
  intro fuel
  induction fuel with
  | zero => intro s _; rfl
  | succ f ih =>
    intro s h
    cases s with
    | nil => rfl
    | cons c cs =>
      have h1 : matchRowAt g1 tl (c :: cs) = none := by
        cases hm : matchRowAt g1 tl (c :: cs) with
        | none => rfl
        | some v => rw [hasMatchAux, hm] at h; simp at h
      have h2 : hasMatchAux g1 tl f cs = false := by
        rw [hasMatchAux, h1] at h; simpa using h
      simp [scanRep, h1, ih cs h2]

/-- When neither pattern matches anywhere in the text, both global
replaces are the identity and the `updated` flag is false. -/
lemma enrich_no_match (t : List Char) (r : EnrichmentRecord)
    (h1 : hasMatch (newEntryG1 r.title) tailToks t = false)
    (h2 : hasMatch (riserG1 r.title) tailToks t = false) :
    enrichWatchlist t r = { updatedText := t, updated := false } := by
  unfold hasMatch at h1 h2
  have e1 : replaceAllPat (newEntryG1 r.title) tailToks
      (replTemplate r.developer r.publisher) t = t :=
    scanRep_of_no_match _ _ _ _ _ h1
  have em : mergedText t r = t := by
    unfold mergedText
    rw [e1]
    exact scanRep_of_no_match _ _ _ _ _ h2
  unfold enrichWatchlist
  rw [em]
  simp

/-- C8: when no row of the artifact matches the record's patterns (wrong
identifier, or the row is already enriched), the merge returns
`updated = false` and the artifact text byte-for-byte unchanged — and
since the caller only writes the file when `updated` is true, no state
changes on a lookup miss. -/
theorem enrich_lookup_miss (t : List Char) (r : EnrichmentRecord)
    (h1 : hasMatch (newEntryG1 r.title) tailToks t = false)
    (h2 : hasMatch (riserG1 r.title) tailToks t = false) :
    enrichWatchlist t r = { updatedText := t, updated := false } :=
  enrich_no_match t r h1 h2

/-- Witness for C8: a text with no matching row is returned unchanged. -/
theorem enrich_lookup_miss_witness :
    (hasMatch (newEntryG1 "Foo".toList) tailToks "hello | world".toList = false)
    ∧ (hasMatch (riserG1 "Foo".toList) tailToks "hello | world".toList = false)
    ∧ enrichWatchlist "hello | world".toList
        ⟨"Foo".toList, "42".toList, "D".toList, "P".toList⟩
      = { updatedText := "hello | world".toList, updated := false } :=
  ⟨by decide, by decide,
   enrich_lookup_miss "hello | world".toList
     ⟨"Foo".toList, "42".toList, "D".toList, "P".toList⟩ (by decide) (by decide)⟩

/-- C2 counterexample: the merge is not idempotent for every record.  With
`developer = "Unknown | Unknown"` and `publisher = "X"` on a 5-column row,
the first call rewrites the row to
`| 1 | T | 100 | Unknown | Unknown | X |`, which the new-entry pattern
matches again, so the second call changes the text once more and reports
`updated = true` instead of the claimed no-op with `matched = false`. -/
theorem enrich_not_idempotent :
    enrichWatchlist
        (enrichWatchlist "| 1 | T | 100 | Unknown | Unknown |".toList
          ⟨"T".toList, "5".toList, "Unknown | Unknown".toList, "X".toList⟩).updatedText
        ⟨"T".toList, "5".toList, "Unknown | Unknown".toList, "X".toList⟩
      ≠ { updatedText :=
            (enrichWatchlist "| 1 | T | 100 | Unknown | Unknown |".toList
              ⟨"T".toList, "5".toList, "Unknown | Unknown".toList, "X".toList⟩).updatedText,
          updated := false } := by decide

/-- C2 amended: re-applying the merge returns the same text with
`updated = false` whenever the first application's output no longer
contains any match of the record's patterns (which is the situation the
spec describes: the targeted placeholder text has been replaced).  The
replacement does not guarantee this for every record — see the
counterexample, where the substituted developer text recreates a matching
row. -/
theorem enrich_idempotent_when_cleared (t : List Char) (r : EnrichmentRecord)
    (h1 : hasMatch (newEntryG1 r.title) tailToks
            (enrichWatchlist t r).updatedText = false)
    (h2 : hasMatch (riserG1 r.title) tailToks
            (enrichWatchlist t r).updatedText = false) :
    enrichWatchlist (enrichWatchlist t r).updatedText r
      = { updatedText := (enrichWatchlist t r).updatedText, updated := false } :=
  enrich_no_match _ r h1 h2

/-- Witness for the amended C2: after a successful first merge with an
ordinary record, the second merge is a no-op with `updated = false`. -/
theorem enrich_idempotent_when_cleared_witness :
    (hasMatch (newEntryG1 "T".toList) tailToks
        (enrichWatchlist "| 1 | T | 100 | Unknown | Unknown |".toList
          ⟨"T".toList, "5".toList, "D".toList, "P".toList⟩).updatedText = false)
    ∧ (hasMatch (riserG1 "T".toList) tailToks
        (enrichWatchlist "| 1 | T | 100 | Unknown | Unknown |".toList
          ⟨"T".toList, "5".toList, "D".toList, "P".toList⟩).updatedText = false)
    ∧ enrichWatchlist
        (enrichWatchlist "| 1 | T | 100 | Unknown | Unknown |".toList
          ⟨"T".toList, "5".toList, "D".toList, "P".toList⟩).updatedText
        ⟨"T".toList, "5".toList, "D".toList, "P".toList⟩
      = { updatedText :=
            (enrichWatchlist "| 1 | T | 100 | Unknown | Unknown |".toList
              ⟨"T".toList, "5".toList, "D".toList, "P".toList⟩).updatedText,
          updated := false } :=
  ⟨by decide, by decide,
   enrich_idempotent_when_cleared "| 1 | T | 100 | Unknown | Unknown |".toList
     ⟨"T".toList, "5".toList, "D".toList, "P".toList⟩ (by decide) (by decide)⟩



set_option maxRecDepth 100000

/-- C1: the generated watchlist row
`| 1 | Foo | 100 | 42 | Unknown | Unknown |` has identifier column `Foo`
and both trailing columns `Unknown`, yet the merge for the record
`{title: "Foo", developer: "Dev", publisher: "Pub"}` returns
`updated = false` and leaves the artifact unchanged: `generateWatchlist`
emits an App ID column between the followers column and the placeholders,
while both patterns of `enrichWatchlist` (per that function's own format
comment) expect the placeholders to follow the followers column
immediately, so no generated row can ever match. -/
theorem enrich_misses_generated_row :
    enrichWatchlist watchlistFoo.toList
        ⟨"Foo".toList, "42".toList, "Dev".toList, "Pub".toList⟩
      = { updatedText := watchlistFoo.toList, updated := false } := by decide


lemma scanRep_nil (g1 tl : List Tok) (tmpl : List Char) (f : Nat) :
    scanRep g1 tl tmpl f [] = [] := by
  cases f <;> rfl

set_option maxHeartbeats 1600000

/-- The new-entry scan matches the row at its start (consuming exactly the
row, whatever follows), emits the replacement and continues after the
newline: two scan steps per line. -/
lemma scanNew_unit_step (f : Nat) (rest : List Char) :
    scanRep (newEntryG1 recFoo.title) tailToks
        (replTemplate recFoo.developer recFoo.publisher)
        (f + 2) (unitFoo ++ rest)
      = unitFooRepl ++ scanRep (newEntryG1 recFoo.title) tailToks
          (replTemplate recFoo.developer recFoo.publisher) f rest := rfl

lemma scanNew_repUnit : ∀ (n f : Nat), 2 * n ≤ f →
    scanRep (newEntryG1 recFoo.title) tailToks
        (replTemplate recFoo.developer recFoo.publisher) f (repUnit n)
      = repUnitRepl n := by
  intro n
  induction n with
  | zero => intro f _; exact scanRep_nil _ _ _ f
  | succ m ih =>
    intro f hf
    obtain ⟨f', rfl⟩ : ∃ f', f = f' + 2 := ⟨f - 2, by omega⟩
    calc scanRep (newEntryG1 recFoo.title) tailToks
          (replTemplate recFoo.developer recFoo.publisher)
          (f' + 2) (repUnit (m + 1))
        = unitFooRepl ++ scanRep (newEntryG1 recFoo.title) tailToks
            (replTemplate recFoo.developer recFoo.publisher) f' (repUnit m) :=
          scanNew_unit_step f' (repUnit m)
      _ = unitFooRepl ++ repUnitRepl m := by rw [ih f' (by omega)]
      _ = repUnitRepl (m + 1) := rfl

/-- The riser pattern matches nowhere in a replaced line (the third
column would have to start with `+`), so the riser scan walks its 26
characters one by one. -/
lemma scanRiser_unit_step (f : Nat) (rest : List Char)
    (h : rest = [] ∨ ∃ r2, rest = '|' :: r2) :
    scanRep (riserG1 recFoo.title) tailToks
        (replTemplate recFoo.developer recFoo.publisher)
        (f + 26) (unitFooRepl ++ rest)
      = unitFooRepl ++ scanRep (riserG1 recFoo.title) tailToks
          (replTemplate recFoo.developer recFoo.publisher) f rest := by
  rcases h with rfl | ⟨r2, rfl⟩
  · rfl
  · rfl

lemma repUnitRepl_head (n : Nat) :
    repUnitRepl n = [] ∨ ∃ r2, repUnitRepl n = '|' :: r2 := by
  cases n with
  | zero => exact Or.inl rfl
  | succ m => exact Or.inr ⟨_, rfl⟩

lemma scanRiser_repUnitRepl : ∀ (n f : Nat), 26 * n ≤ f →
    scanRep (riserG1 recFoo.title) tailToks
        (replTemplate recFoo.developer recFoo.publisher) f (repUnitRepl n)
      = repUnitRepl n := by
  intro n
  induction n with
  | zero => intro f _; exact scanRep_nil _ _ _ f
  | succ m ih =>
    intro f hf
    obtain ⟨f', rfl⟩ : ∃ f', f = f' + 26 := ⟨f - 26, by omega⟩
    calc scanRep (riserG1 recFoo.title) tailToks
          (replTemplate recFoo.developer recFoo.publisher)
          (f' + 26) (repUnitRepl (m + 1))
        = unitFooRepl ++ scanRep (riserG1 recFoo.title) tailToks
            (replTemplate recFoo.developer recFoo.publisher) f' (repUnitRepl m) :=
          scanRiser_unit_step f' (repUnitRepl m) (repUnitRepl_head m)
      _ = unitFooRepl ++ repUnitRepl m := by rw [ih f' (by omega)]
      _ = repUnitRepl (m + 1) := rfl

lemma repUnit_length (n : Nat) : (repUnit n).length = 38 * n := by
  induction n with
  | zero => rfl
  | succ m ih =>
    have hu : unitFoo.length = 38 := rfl
    show (unitFoo ++ repUnit m).length = 38 * (m + 1)
    rw [List.length_append, ih, hu]
    omega

lemma repUnitRepl_length (n : Nat) : (repUnitRepl n).length = 26 * n := by
  induction n with
  | zero => rfl
  | succ m ih =>
    have hu : unitFooRepl.length = 26 := rfl
    show (unitFooRepl ++ repUnitRepl m).length = 26 * (m + 1)
    rw [List.length_append, ih, hu]
    omega

/-- C10: on an artifact made of `n` rows that all match the new-entry
pattern for the record, a single merge call replaces the trailing two
placeholder columns of every row (not only the first), and reports
`updated` exactly when at least one row was present. -/
theorem enrich_replaces_every_matching_row (n : Nat) :
    enrichWatchlist (repUnit n) recFoo
      = { updatedText := repUnitRepl n, updated := decide (n ≠ 0) } := by
  have h1 : replaceAllPat (newEntryG1 recFoo.title) tailToks
      (replTemplate recFoo.developer recFoo.publisher) (repUnit n)
        = repUnitRepl n := by
    unfold replaceAllPat
    exact scanNew_repUnit n (repUnit n).length (by rw [repUnit_length]; omega)
  have h2 : replaceAllPat (riserG1 recFoo.title) tailToks
      (replTemplate recFoo.developer recFoo.publisher) (repUnitRepl n)
        = repUnitRepl n := by
    unfold replaceAllPat
    exact scanRiser_repUnitRepl n (repUnitRepl n).length
      (by rw [repUnitRepl_length])
  have hm : mergedText (repUnit n) recFoo = repUnitRepl n := by
    unfold mergedText
    rw [h1, h2]
  unfold enrichWatchlist
  rw [hm]
  cases n with
  | zero => rfl
  | succ m =>
    have hne : repUnitRepl (m + 1) ≠ repUnit (m + 1) := by
      intro he
      have hlen := congrArg List.length he
      rw [repUnit_length, repUnitRepl_length] at hlen
      omega
    simp [hne]


end SteamTracker
